import Mathlib

/-
Shallow embedding of the playback-session, navigation and visualizer logic of
ongaku.py, together with theorems settling the frozen claims about it.

Machine integers are modelled as Int (Python ints are unbounded), Python
float bar levels as rationals, Python `//` as Int.fdiv (floor division) and
Python `%` as Int.emod (both agree with Python's semantics on these types).
External collaborators (the yt-dlp resolver, the VLC backend, the math
library's sin and cos) are passed in as explicit function parameters.
-/

namespace Ongaku

/-- A search-result / playlist track record, as built in search_youtube:
keys title, url, duration, uploader, id. -/
structure Track where
  title : String
  url : String
  duration : Int
  uploader : String
  id : String
deriving DecidableEq

instance : Inhabited Track := ⟨⟨"", "", 0, "", ""⟩⟩

/-- A playlist record, as built in create_playlist: keys id, name, tracks,
created. -/
structure Playlist where
  id : String
  name : String
  tracks : List Track
  created : Int
deriving DecidableEq

/-- The session-relevant mutable fields of MusicPlayer (ongaku.py lines
47-59).  Backend handles, the stream cache and the persistence files are
collaborators outside the session state machine; the fields the claims are
about are kept verbatim. -/
structure PlayerState where
  is_playing : Bool
  current_track : Option String
  current_duration : Int
  volume : Int
  playlists : List Playlist
  current_playlist : Option Playlist
  current_playlist_index : Int
deriving DecidableEq

/-- MusicPlayer.stop (lines 188-197).  The `if self.player` guard is always
true after successful construction (construction failure exits the
process), so only the field mutations remain. -/
def stop (clear_playlist : Bool) (s : PlayerState) : PlayerState :=
  { s with
    is_playing := false
    current_track := none
    current_duration := 0
    current_playlist := if clear_playlist then none else s.current_playlist
    current_playlist_index :=
      if clear_playlist then -1 else s.current_playlist_index }

/-- MusicPlayer.play_track (lines 163-186).  `resolve` is
extract_stream_url as a function of the url (cache plus network at the
moment of the call); it returns none exactly when no stream url is
obtained.  The visualizer.clear_immediately call touches only the
visualizer object, modelled separately below.  The VLC media/volume/play
calls mutate only the backend handle. -/
def play_track (resolve : String → Option String) (s : PlayerState)
    (url : String) (title : String) (duration : Int) (from_playlist : Bool) :
    PlayerState × Bool :=
  let s1 := stop (!from_playlist) s
  match resolve url with
  | none => (s1, false)
  | some _ =>
    ({ s1 with
        current_track := some title
        current_duration := duration
        is_playing := true }, true)

/-- MusicPlayer.set_volume (lines 204-208): clamp into [0, 100]. -/
def set_volume (s : PlayerState) (volume : Int) : PlayerState :=
  { s with volume := max 0 (min 100 volume) }

/-- MusicPlayer.volume_up (lines 210-212). -/
def volume_up (s : PlayerState) : PlayerState :=
  set_volume s (s.volume + 5)

/-- MusicPlayer.volume_down (lines 214-216). -/
def volume_down (s : PlayerState) : PlayerState :=
  set_volume s (s.volume - 5)

/-- One volume mutation of the public volume surface. -/
inductive VolOp where
  | set (v : Int)
  | up
  | down
deriving DecidableEq

/-- Apply one volume operation. -/
def applyVolOp (s : PlayerState) (op : VolOp) : PlayerState :=
  match op with
  | .set v => set_volume s v
  | .up => volume_up s
  | .down => volume_down s

/-- Run a finite sequence of volume operations. -/
def runVol (s : PlayerState) (ops : List VolOp) : PlayerState :=
  ops.foldl applyVolOp s

/-- MusicPlayer.get_current_time (lines 218-228).  `time_ms` is the VLC
backend reading self.player.get_time() at the moment of the call (-1 when
unknown); Python's `// 1000` is floor division. -/
def get_current_time (s : PlayerState) (time_ms : Int) : Int :=
  if s.is_playing then
    if time_ms ≠ -1 then
      let current_seconds := Int.fdiv time_ms 1000
      if 0 < s.current_duration then min current_seconds s.current_duration
      else current_seconds
    else 0
  else 0

/-- Python list indexing l[i]: nonnegative indices from the front, negative
indices from the back, none for an IndexError. -/
def pyIndex (l : List Track) (i : Int) : Option Track :=
  if 0 ≤ i then l.get? i.toNat
  else if 0 ≤ (l.length : Int) + i then l.get? ((l.length : Int) + i).toNat
  else none

/-- MusicPlayer.play_playlist_track (lines 336-345).  The guard only
rejects track_index ≥ len(tracks); Python accepts negative indices in
`playlist['tracks'][track_index]` down to -len (below that an IndexError
escapes after current_playlist/current_playlist_index were already
mutated, modelled by the error case carrying the mutated state). -/
def play_playlist_track (resolve : String → Option String) (s : PlayerState)
    (playlist_id : String) (track_index : Int) :
    Except PlayerState (PlayerState × Bool) :=
  match s.playlists.find? (fun p => p.id == playlist_id) with
  | none => .ok (s, false)
  | some playlist =>
    if (playlist.tracks.length : Int) ≤ track_index then .ok (s, false)
    else
      let s1 := { s with
        current_playlist := some playlist
        current_playlist_index := track_index }
      match pyIndex playlist.tracks track_index with
      | none => .error s1
      | some track =>
        .ok (play_track resolve s1 track.url track.title track.duration true)

/-- The session state an Except result leaves behind. -/
def stateOf : Except PlayerState (PlayerState × Bool) → PlayerState
  | .error s => s
  | .ok (s, _) => s

/-- Outcome of one `self.play_track(...)` attempt inside
play_next_in_playlist's try block: returned True, returned False, or
raised an exception. -/
inductive Outcome where
  | ok
  | failed
  | raised
deriving DecidableEq

/-- MusicPlayer.play_next_in_playlist (lines 347-376).  `att k` gives the
outcome of the k-th play attempt (the external resolver/backend behaviour
for that attempt).  The direct self.player.stop() and the settle sleep
mutate only the backend handle.  play_track first runs
self.stop(clear_playlist=False) and on success sets
current_track/current_duration/is_playing; on a raised attempt the
track/playing fields at the raise point are modelled by the stop-applied
state (the playlist context fields, the only ones the recursion and the
claims read, are identical at every possible raise point).  `fuel` bounds
the recursion depth of the embedding; none means the recursion has not
returned within `fuel` calls. -/
def play_next_in_playlist (att : Nat → Outcome) (k : Nat) (fuel : Nat)
    (s : PlayerState) : Option (PlayerState × Bool) :=
  match fuel with
  | 0 => none
  | f + 1 =>
    match s.current_playlist with
    | none => some (s, false)
    | some pl =>
      if pl.tracks.length = 0 then some (s, false)
      else
        let idx : Int :=
          (s.current_playlist_index + 1) % (pl.tracks.length : Int)
        let s1 := { s with current_playlist_index := idx }
        let track := pl.tracks.getD idx.toNat default
        match att k with
        | .ok =>
          some ({ stop false s1 with
              current_track := some track.title
              current_duration := track.duration
              is_playing := true }, true)
        | .failed => some (stop false s1, false)
        | .raised =>
          if 1 < pl.tracks.length then
            play_next_in_playlist att (k + 1) f (stop false s1)
          else some (stop false s1, false)

/-- The oracle of a run in which every play attempt succeeds. -/
def attAllOk : Nat → Outcome := fun _ => .ok

/-- One call to play_next_in_playlist under all-successful resolutions
(fuel 1 always suffices there). -/
def playNextStep (s : PlayerState) : PlayerState :=
  ((play_next_in_playlist attAllOk 0 1 s).getD (s, false)).1

/-- The cursor-validity part of the continuation-context invariant:
whenever current_playlist is set, current_playlist_index is a valid
(nonnegative, in-range) index into its track list. -/
def Inv (s : PlayerState) : Prop :=
  ∀ pl, s.current_playlist = some pl →
    0 ≤ s.current_playlist_index ∧
    s.current_playlist_index < (pl.tracks.length : Int)

/-- The navigation-relevant fields of MusicPlayerUI.  visible_lines and the
list size are passed to each operation (they are recomputed from the
terminal and the active collection). -/
structure UIState where
  selected_index : Int
  scroll_offset : Int
deriving DecidableEq

/-- MusicPlayerUI.adjust_viewport (lines 1226-1236): scroll up to put the
selection at the top edge, or down to put it at the bottom edge; the Bool
is the needs-full-redraw result. -/
def adjust_viewport (visible_lines : Int) (s : UIState) : UIState × Bool :=
  if s.selected_index < s.scroll_offset then
    ({ s with scroll_offset := s.selected_index }, true)
  else if s.scroll_offset + visible_lines ≤ s.selected_index then
    ({ s with scroll_offset := s.selected_index - visible_lines + 1 }, true)
  else (s, false)

/-- An up or down navigation key. -/
inductive NavKey where
  | up
  | down
deriving DecidableEq

/-- The KEY_UP / KEY_DOWN branches of MusicPlayerUI.handle_results_input
(lines 1352-1412) restricted to their selection/scroll effect.  `m` is
len(self.player.search_results).  Down while already on the last result
(and no fetch in flight) starts a background fetch-more and leaves the
selection unchanged; the line-redraw bookkeeping touches only the screen. -/
def handle_results_nav (m visible_lines : Int) (key : NavKey) (s : UIState) :
    UIState :=
  match key with
  | .up =>
    let new_index := max 0 (s.selected_index - 1)
    if new_index ≠ s.selected_index then
      (adjust_viewport visible_lines { s with selected_index := new_index }).1
    else s
  | .down =>
    if s.selected_index = m - 1 then s
    else
      let new_index := min (m - 1) (s.selected_index + 1)
      if new_index ≠ s.selected_index then
        (adjust_viewport visible_lines { s with selected_index := new_index }).1
      else s

/-- Run a sequence of navigation keys. -/
def run_nav (m visible_lines : Int) (s : UIState) (keys : List NavKey) :
    UIState :=
  keys.foldl (fun st k => handle_results_nav m visible_lines k st) s

/-- The viewport invariant of the spec: the selection is inside the
viewport and the scroll offset is within [0, max 0 (m - h)]. -/
def VInv (m visible_lines : Int) (s : UIState) : Prop :=
  s.scroll_offset ≤ s.selected_index ∧
  s.selected_index < s.scroll_offset + visible_lines ∧
  0 ≤ s.scroll_offset ∧
  s.scroll_offset ≤ max 0 (m - visible_lines)

/-- The VLC player states update_from_vlc distinguishes. -/
inductive VlcState where
  | Playing
  | Paused
  | Ended
  | Stopped
  | Other
deriving DecidableEq

/-- What AudioVisualizer.update_from_vlc observes on the VLC handle in one
call: get_state(), audio_get_volume(), get_time(), and the media identity
read (player.get_media() then str(...) / None; the whole read is wrapped
in try/except, so none here means the read raised and the update falls
through to the synthetic-generation step). -/
structure VlcObs where
  state : VlcState
  volume : Int
  time_ms : Int
  media_read : Option (Option String)

/-- The AudioVisualizer fields (lines 396-401): bar count, bar levels, and
the identity marker of the track the levels were last computed for. -/
structure VisState where
  bars : Nat
  frequency_bands : List ℚ
  current_track : Option String
deriving DecidableEq

/-- The per-bar synthetic target of update_from_vlc (lines 451-477): the
band-dependent sinusoidal combination, scaled by volume/100 and clamped to
[0, 1].  `sinq`/`cosq` stand for math.sin/math.cos. -/
def bar_target (sinq cosq : ℚ → ℚ) (bars : Nat) (volume time_ms : Int)
    (i : Nat) : ℚ :=
  let freq_ratio : ℚ := (i : ℚ) / ((bars : ℚ) - 1)
  let time_factor : ℚ := ((time_ms : ℚ) / 1000) * 2
  let base_amplitude : ℚ := (volume : ℚ) / 100
  let raw : ℚ :=
    if freq_ratio < 0.3 then
      0.7 + sinq (time_factor * 1.2 + (i : ℚ) * 0.5) * 0.4 +
        sinq (time_factor * 0.8) * 0.3
    else if freq_ratio < 0.7 then
      0.5 + sinq (time_factor * 1.8 + (i : ℚ) * 0.3) * 0.3 +
        cosq (time_factor * 1.1) * 0.2
    else
      0.4 + sinq (time_factor * 2.5 + (i : ℚ) * 0.8) * 0.4 +
        sinq (time_factor * 3.0) * 0.2
  max 0 (min 1 (raw * base_amplitude))

/-- The attack/release smoothing of update_from_vlc (lines 479-486). -/
def smooth_toward (cur target : ℚ) : ℚ :=
  let smoothing : ℚ := if cur < target then 0.6 else 0.2
  smoothing * target + (1 - smoothing) * cur

/-- The synthetic-generation loop of update_from_vlc (lines 455-486):
`for i in range(self.bars)` writes the smoothed target into
frequency_bands[i]. -/
def gen_step (sinq cosq : ℚ → ℚ) (volume time_ms : Int) (v : VisState) :
    VisState :=
  { v with
    frequency_bands := v.frequency_bands.mapIdx fun i cur =>
      if i < v.bars then
        smooth_toward cur (bar_target sinq cosq v.bars volume time_ms i)
      else cur }

/-- AudioVisualizer.update_from_vlc (lines 403-486).  The caller passes the
VLC handle while the session is playing and None otherwise (lines
1772-1777), so `player` is the optional observation of that handle.  In
`if not player or not player.is_playing`, `player.is_playing` is the bound
method object (never called), which is always truthy, so that guard fires
exactly when player is None. -/
def update_from_vlc (sinq cosq : ℚ → ℚ) (player : Option VlcObs)
    (v : VisState) : VisState :=
  match player with
  | none =>
    { v with
      frequency_bands := v.frequency_bands.map fun _ => 0
      current_track := none }
  | some obs =>
    match obs.state with
    | .Paused =>
      { v with frequency_bands := v.frequency_bands.map fun x => x * 0.92 }
    | .Playing =>
      if obs.volume < 0 ∨ obs.time_ms ≤ 0 then v
      else
        match obs.media_read with
        | some media_id =>
          if v.current_track ≠ media_id then
            { v with
              frequency_bands := v.frequency_bands.map fun _ => 0
              current_track := media_id }
          else gen_step sinq cosq obs.volume obs.time_ms v
        | none => gen_step sinq cosq obs.volume obs.time_ms v
    | _ => { v with frequency_bands := v.frequency_bands.map fun _ => 0 }

/-- The cursor update play_next_in_playlist performs before its play
attempt (line 357). -/
def advance (s : PlayerState) (pl : Playlist) : PlayerState :=
  { s with current_playlist_index :=
      (s.current_playlist_index + 1) % (pl.tracks.length : Int) }

/-- Sample track "a". -/
def trackA : Track := ⟨"Song A", "urlA", 100, "Uploader", "a"⟩

/-- Sample track "b". -/
def trackB : Track := ⟨"Song B", "urlB", 200, "Uploader", "b"⟩

/-- Sample two-track playlist. -/
def plAB : Playlist := ⟨"p1", "Mix", [trackA, trackB], 0⟩

/-- Sample one-track playlist. -/
def plA : Playlist := ⟨"p2", "Solo", [trackA], 0⟩

/-- A resolver in which every stream resolution fails. -/
def resolveNone : String → Option String := fun _ => none

/-- A resolver in which every stream resolution succeeds. -/
def resolveAll : String → Option String := fun _ => some "stream"

/-- Sample session playing a track outside any playlist context. -/
def sPlaying : PlayerState := ⟨true, some "Song A", 100, 100, [plAB, plA], none, -1⟩

/-- Sample idle session. -/
def sIdle : PlayerState := ⟨false, none, 0, 100, [plAB, plA], none, -1⟩

/-- Sample session playing track 0 of the two-track playlist. -/
def sInPl : PlayerState := ⟨true, some "Song A", 100, 100, [plAB], some plAB, 0⟩

/-- Sample visualizer state with nonzero bar levels for track "m1". -/
def visSample : VisState := ⟨15, [1/2, 3/10], some "m1"⟩

/-- Sample VLC observation in which the media identity has become "m2". -/
def obsChange : VlcObs := ⟨.Playing, 50, 1000, some (some "m2")⟩

/-- A sample volume-operation sequence. -/
def volOps : List VolOp := [VolOp.up, VolOp.set 200, VolOp.down]

end Ongaku

namespace Ongaku

/-- C1 counterexample: play_track stops the session (clearing
current-track, duration and the playing flag) before attempting stream
resolution, so a failed resolution does not leave the session exactly as
before the call: from a session playing "Song A", a failed play attempt
leaves no current track and the playing flag cleared. -/
theorem C1_counterexample :
    play_track resolveNone sPlaying "urlB" "Song B" 200 false =
      (⟨false, none, 0, 100, [plAB, plA], none, -1⟩, false) ∧
    sPlaying.current_track = some "Song A" ∧ sPlaying.is_playing = true :=
  ⟨rfl, rfl, rfl⟩

/-- C1 amended: if play_track fails because stream resolution returns no
locator, it returns failure with the session left stopped (no current
track, zero duration, not playing); the continuation context is preserved
exactly when from_playlist is true and cleared (to none / -1) otherwise. -/
theorem C1_failed_play_leaves_session_stopped
    (resolve : String → Option String) (s : PlayerState) (url title : String)
    (duration : Int) (from_playlist : Bool) (h : resolve url = none) :
    play_track resolve s url title duration from_playlist =
      (stop (!from_playlist) s, false) ∧
    (stop (!from_playlist) s).current_track = none ∧
    (stop (!from_playlist) s).current_duration = 0 ∧
    (stop (!from_playlist) s).is_playing = false ∧
    (from_playlist = true →
      (stop (!from_playlist) s).current_playlist = s.current_playlist ∧
      (stop (!from_playlist) s).current_playlist_index =
        s.current_playlist_index) ∧
    (from_playlist = false →
      (stop (!from_playlist) s).current_playlist = none ∧
      (stop (!from_playlist) s).current_playlist_index = -1) := by
  refine ⟨by simp [play_track, h], rfl, rfl, rfl, ?_, ?_⟩
  · intro hf; subst hf; exact ⟨rfl, rfl⟩
  · intro hf; subst hf; exact ⟨rfl, rfl⟩

/-- C1 witness: the amended statement at a concrete failing call from a
playlist context. -/
theorem C1_witness :
    play_track resolveNone sPlaying "urlA" "T" 0 true =
      (stop (!true) sPlaying, false) :=
  (C1_failed_play_leaves_session_stopped resolveNone sPlaying "urlA" "T" 0
    true rfl).1

/-- C6: for a playing session with known positive duration and a known
backend elapsed reading (time_ms ≠ -1, e = time_ms // 1000 seconds),
get_current_time returns min(e, duration). -/
theorem C6_elapsed_clamped_to_duration (s : PlayerState) (time_ms : Int)
    (hp : s.is_playing = true) (hd : 0 < s.current_duration)
    (ht : time_ms ≠ -1) :
    get_current_time s time_ms =
      min (Int.fdiv time_ms 1000) s.current_duration := by
  simp [get_current_time, hp, hd, ht]

/-- C6 witness: a concrete playing session of duration 120 with backend
reading 125300 ms reports min 125 120 = 120. -/
theorem C6_witness :
    get_current_time ⟨true, some "t", 120, 100, [], none, -1⟩ 125300 = 120 := by
  have h := C6_elapsed_clamped_to_duration
    ⟨true, some "t", 120, 100, [], none, -1⟩ 125300 rfl (by decide) (by decide)
  rw [h]; decide

/-- C10: whenever the session is not playing or the backend reports its
elapsed time as unknown (-1), get_current_time returns exactly 0; and for
any backend reading respecting the interface contract (an int ≥ -1, with
-1 meaning unknown), the reported elapsed time is nonnegative. -/
theorem C10_elapsed_zero_and_nonneg (s : PlayerState) (time_ms : Int) :
    ((s.is_playing = false ∨ time_ms = -1) →
      get_current_time s time_ms = 0) ∧
    (-1 ≤ time_ms → 0 ≤ get_current_time s time_ms) := by
  constructor
  · rintro (h | h) <;> simp [get_current_time, h]
  · intro h
    simp only [get_current_time]
    split_ifs with h1 h2 h3
    · exact le_min (Int.fdiv_nonneg (by omega) (by norm_num)) h3.le
    · exact Int.fdiv_nonneg (by omega) (by norm_num)
    · exact le_refl 0
    · exact le_refl 0

/-- C10 witness: the theorem at a concrete idle session. -/
theorem C10_witness :
    get_current_time sIdle 500 = 0 ∧ 0 ≤ get_current_time sIdle 500 :=
  ⟨(C10_elapsed_zero_and_nonneg sIdle 500).1 (Or.inl rfl),
   (C10_elapsed_zero_and_nonneg sIdle 500).2 (by decide)⟩

/-- Every single volume mutation clamps into [0, 100]. -/
lemma applyVolOp_bounds (s : PlayerState) (op : VolOp) :
    0 ≤ (applyVolOp s op).volume ∧ (applyVolOp s op).volume ≤ 100 := by
  cases op <;>
    simp only [applyVolOp, set_volume, volume_up, volume_down] <;> omega

/-- Bounds propagate through any sequence of volume operations. -/
lemma runVol_bounds (ops : List VolOp) (s : PlayerState) (h0 : 0 ≤ s.volume)
    (h1 : s.volume ≤ 100) :
    0 ≤ (runVol s ops).volume ∧ (runVol s ops).volume ≤ 100 := by
  induction ops generalizing s with
  | nil => exact ⟨h0, h1⟩
  | cons op ops ih =>
    have hb := applyVolOp_bounds s op
    simpa [runVol] using ih (applyVolOp s op) hb.1 hb.2

/-- C7: starting from any volume in [0, 100], the stored volume lies in
[0, 100] after every initial segment of any sequence of
set_volume/volume_up/volume_down calls; and volume_up followed by
volume_down from an interior value (one where the +5 step does not clamp)
returns the volume to its original value. -/
theorem C7_volume_invariant :
    (∀ (s : PlayerState) (ops : List VolOp) (k : Nat),
      0 ≤ s.volume → s.volume ≤ 100 →
      0 ≤ (runVol s (ops.take k)).volume ∧
        (runVol s (ops.take k)).volume ≤ 100) ∧
    (∀ s : PlayerState, 0 ≤ s.volume → s.volume + 5 ≤ 100 →
      (volume_down (volume_up s)).volume = s.volume) := by
  constructor
  · intro s ops k h0 h1
    exact runVol_bounds (ops.take k) s h0 h1
  · intro s h0 h1
    simp only [volume_up, volume_down, set_volume]
    omega

/-- C7 witness: the theorem at a concrete volume-50 session and a concrete
operation sequence. -/
theorem C7_witness :
    (0 ≤ (runVol ⟨false, none, 0, 50, [], none, -1⟩ (volOps.take 3)).volume ∧
      (runVol ⟨false, none, 0, 50, [], none, -1⟩ (volOps.take 3)).volume ≤ 100) ∧
    (volume_down (volume_up ⟨false, none, 0, 50, [], none, -1⟩)).volume = 50 :=
  ⟨C7_volume_invariant.1 ⟨false, none, 0, 50, [], none, -1⟩ volOps 3
      (by decide) (by decide),
   C7_volume_invariant.2 ⟨false, none, 0, 50, [], none, -1⟩
      (by decide) (by decide)⟩

/-- C9: if, during a visualizer update that reaches the media-identity
observation (session playing, VLC state Playing, volume ≥ 0, elapsed
time > 0, media read succeeded), the observed identity differs from the
last-seen one, then the update resets every bar level to exactly 0,
records the new identity, and returns without running the
synthetic-generation and smoothing step. -/
theorem C9_visualizer_track_change (sinq cosq : ℚ → ℚ) (obs : VlcObs)
    (v : VisState) (media_id : Option String)
    (hs : obs.state = VlcState.Playing) (hv : 0 ≤ obs.volume)
    (ht : 0 < obs.time_ms) (hm : obs.media_read = some media_id)
    (hne : v.current_track ≠ media_id) :
    update_from_vlc sinq cosq (some obs) v =
      { v with
        frequency_bands := v.frequency_bands.map fun _ => 0
        current_track := media_id } := by
  obtain ⟨st, vol, tm, mr⟩ := obs
  simp only at hs hv ht hm
  subst hs; subst hm
  have hg : ¬ (vol < 0 ∨ tm ≤ 0) := by omega
  simp [update_from_vlc, hg, hne]

/-- C9 witness: the theorem at a concrete observation whose media identity
"m2" differs from the stored "m1". -/
theorem C9_witness :
    update_from_vlc id id (some obsChange) visSample =
      { visSample with
        frequency_bands := visSample.frequency_bands.map fun _ => 0
        current_track := some "m2" } :=
  C9_visualizer_track_change id id obsChange visSample (some "m2") rfl
    (by decide) (by decide) rfl (by decide)

/-- One navigation step keeps the viewport invariant and the selection in
range. -/
lemma nav_step_preserves (m h : Int) (hm : 1 ≤ m) (hh : 1 ≤ h) (s : UIState)
    (hI : VInv m h s) (hsel : s.selected_index ≤ m - 1) (k : NavKey) :
    VInv m h (handle_results_nav m h k s) ∧
    (handle_results_nav m h k s).selected_index ≤ m - 1 := by
  obtain ⟨sel, off⟩ := s
  obtain ⟨h1, h2, h3, h4⟩ := hI
  simp only at h1 h2 h3 h4 hsel
  cases k <;>
    simp only [handle_results_nav, adjust_viewport, VInv] <;>
    split_ifs <;> simp_all <;> omega

/-- The viewport invariant and selection range propagate through any
navigation sequence. -/
lemma run_nav_preserves (m h : Int) (hm : 1 ≤ m) (hh : 1 ≤ h)
    (keys : List NavKey) (s : UIState) (hI : VInv m h s)
    (hsel : s.selected_index ≤ m - 1) :
    VInv m h (run_nav m h s keys) ∧
    (run_nav m h s keys).selected_index ≤ m - 1 := by
  induction keys generalizing s with
  | nil => exact ⟨hI, hsel⟩
  | cons k ks ih =>
    have hstep := nav_step_preserves m h hm hh s hI hsel k
    simpa [run_nav] using ih (handle_results_nav m h k s) hstep.1 hstep.2

/-- C8: for any sequence of up/down navigation steps over a list of size m
(≥ 1) with viewport height h (≥ 1), starting from a state satisfying the
invariant with the selection in range, after every step
scroll_offset ≤ selected_index < scroll_offset + h and
0 ≤ scroll_offset ≤ max 0 (m - h); and adjust_viewport restores the
invariant by scrolling in one direction only — up to put the selection
exactly at the top edge, down to put it exactly at the bottom edge, and
not at all when the selection is already visible (never recentering). -/
theorem C8_viewport_invariant (m h : Int) (hm : 1 ≤ m) (hh : 1 ≤ h)
    (s : UIState) (hI : VInv m h s) (hsel : s.selected_index ≤ m - 1) :
    (∀ keys : List NavKey, VInv m h (run_nav m h s keys)) ∧
    (∀ u : UIState,
      (u.selected_index < u.scroll_offset →
        adjust_viewport h u =
          ({ u with scroll_offset := u.selected_index }, true)) ∧
      (u.scroll_offset ≤ u.selected_index ∧
          u.selected_index < u.scroll_offset + h →
        adjust_viewport h u = (u, false)) ∧
      (u.scroll_offset + h ≤ u.selected_index →
        adjust_viewport h u =
          ({ u with scroll_offset := u.selected_index - h + 1 }, true))) := by
  constructor
  · intro keys
    exact (run_nav_preserves m h hm hh keys s hI hsel).1
  · intro u
    refine ⟨fun hc => ?_, fun hc => ?_, fun hc => ?_⟩
    · simp [adjust_viewport, hc]
    · have hc1 : ¬ u.selected_index < u.scroll_offset := not_lt.mpr hc.1
      have hc2 : ¬ u.scroll_offset + h ≤ u.selected_index := not_le.mpr hc.2
      simp [adjust_viewport, hc1, hc2]
    · have hc1 : ¬ u.selected_index < u.scroll_offset := by omega
      simp [adjust_viewport, hc1, hc]

/-- C8 witness: the theorem at a concrete size-3 list, height-1 viewport
and a concrete key sequence. -/
theorem C8_witness :
    VInv 3 1 (run_nav 3 1 ⟨0, 0⟩ [NavKey.down, NavKey.down, NavKey.up]) :=
  (C8_viewport_invariant 3 1 (by decide) (by decide) ⟨0, 0⟩
      (by refine ⟨by decide, by decide, by decide, by decide⟩)
      (by decide)).1
    [NavKey.down, NavKey.down, NavKey.up]

/-- C3 counterexample: on the two-track playlist, a play attempt that
returns failure (stream resolution produced no locator) makes
play_next_in_playlist return false immediately — it does not recurse to
the following track even though every later attempt would succeed (the
third conjunct shows the recursion the claim demands would have returned
true). -/
theorem C3_counterexample :
    play_next_in_playlist (fun k => if k = 0 then Outcome.failed else .ok)
        0 10 sInPl =
      some (⟨false, none, 0, 100, [plAB], some plAB, 1⟩, false) ∧
    1 < plAB.tracks.length ∧
    play_next_in_playlist (fun k => if k = 0 then Outcome.failed else .ok)
        1 9 ⟨false, none, 0, 100, [plAB], some plAB, 1⟩ =
      some (⟨true, some "Song A", 100, 100, [plAB], some plAB, 0⟩, true) :=
  ⟨rfl, by decide, rfl⟩

/-- C3 amended: with the context bound to a nonempty playlist, a play
attempt that returns failure makes play_next_in_playlist return false
with no retry (whatever the playlist length); a play attempt that raises
an exception makes it recurse to the following track when the playlist
has more than one track, and return false when it has exactly one. -/
theorem C3_retry_only_on_exception (att : Nat → Outcome) (k fuel : Nat)
    (s : PlayerState) (pl : Playlist) (hpl : s.current_playlist = some pl)
    (hn : pl.tracks.length ≠ 0) :
    (att k = .failed →
      play_next_in_playlist att k (fuel + 1) s =
        some (stop false (advance s pl), false)) ∧
    (att k = .raised → 1 < pl.tracks.length →
      play_next_in_playlist att k (fuel + 1) s =
        play_next_in_playlist att (k + 1) fuel (stop false (advance s pl))) ∧
    (att k = .raised → pl.tracks.length = 1 →
      play_next_in_playlist att k (fuel + 1) s =
        some (stop false (advance s pl), false)) := by
  refine ⟨fun ha => ?_, fun ha h1 => ?_, fun ha h1 => ?_⟩
  · simp [play_next_in_playlist, hpl, hn, ha, advance]
  · simp [play_next_in_playlist, hpl, hn, ha, advance, h1]
  · have h2 : ¬ 1 < pl.tracks.length := by omega
    simp [play_next_in_playlist, hpl, hn, ha, advance, h2]

/-- C3 witness: the amended statement's returned-failure clause at a
concrete all-failing run on the two-track playlist. -/
theorem C3_witness :
    play_next_in_playlist (fun _ => Outcome.failed) 0 10 sInPl =
      some (stop false (advance sInPl plAB), false) :=
  (C3_retry_only_on_exception (fun _ => Outcome.failed) 0 9 sInPl plAB rfl
    (by decide)).1 rfl

/-- C4 counterexample: on the two-track playlist, when every play attempt
raises, play_next_in_playlist has still not returned after 10 recursive
calls — far more retries than the playlist's length 2, refuting the
claimed bound (the recursion is unbounded). -/
theorem C4_counterexample :
    play_next_in_playlist (fun _ => Outcome.raised) 0 10 sInPl = none ∧
    sInPl.current_playlist = some plAB ∧ plAB.tracks.length = 2 :=
  ⟨rfl, rfl, rfl⟩

/-- C4 amended: play_next_in_playlist terminates whenever some play
attempt does not raise an exception: if the (k+j)-th attempt is not a
raise, the call starting at attempt k returns within j+1 calls, from any
session state.  (When every attempt raises on a playlist with more than
one track, the recursion never returns, as the counterexample shows.) -/
theorem C4_termination_needs_nonraising_attempt (att : Nat → Outcome) :
    ∀ (j k : Nat) (s : PlayerState), att (k + j) ≠ Outcome.raised →
      (play_next_in_playlist att k (j + 1) s).isSome := by
  intro j
  induction j with
  | zero =>
    intro k s h
    rw [play_next_in_playlist]
    cases hpl : s.current_playlist with
    | none => simp
    | some pl =>
      by_cases hlen : pl.tracks.length = 0
      · simp [hlen]
      · cases ha : att k with
        | ok => simp [hlen, ha]
        | failed => simp [hlen, ha]
        | raised => exact absurd ha (by simpa using h)
  | succ j ih =>
    intro k s h
    rw [play_next_in_playlist]
    cases hpl : s.current_playlist with
    | none => simp
    | some pl =>
      by_cases hlen : pl.tracks.length = 0
      · simp [hlen]
      · cases ha : att k with
        | ok => simp [hlen, ha]
        | failed => simp [hlen, ha]
        | raised =>
          by_cases h1 : 1 < pl.tracks.length
          · simp [hlen, h1]
            exact ih (k + 1) _
              (by
                have e : k + 1 + j = k + (j + 1) := by omega
                rw [e]; exact h)
          · simp [hlen, ha, h1]

/-- C4 witness: the amended statement at a concrete run whose first
attempt returns failure. -/
theorem C4_witness :
    (play_next_in_playlist (fun _ => Outcome.failed) 0 1 sInPl).isSome :=
  C4_termination_needs_nonraising_attempt (fun _ => Outcome.failed) 0 0 sInPl
    (by decide)

/-- One all-resolutions-succeed call preserves the bound playlist and
advances the cursor by one modulo the playlist length. -/
lemma playNextStep_advances (pl : Playlist) (s : PlayerState)
    (h : s.current_playlist = some pl) (hn : 0 < pl.tracks.length) :
    (playNextStep s).current_playlist = some pl ∧
    (playNextStep s).current_playlist_index =
      (s.current_playlist_index + 1) % (pl.tracks.length : Int) := by
  have hn' : pl.tracks.length ≠ 0 := hn.ne'
  simp [playNextStep, play_next_in_playlist, h, hn', attAllOk, stop]

/-- C5: with every resolution succeeding, each play_next_in_playlist call
on a session bound to a playlist of length n sets the cursor to
(cursor + 1) mod n, so i calls starting from cursor 0 leave the cursor at
i mod n — calling it n times visits the cursor sequence 1, ..., n-1, 0. -/
theorem C5_playlist_wrap (pl : Playlist) (s : PlayerState)
    (h : s.current_playlist = some pl) (h0 : s.current_playlist_index = 0)
    (hn : 0 < pl.tracks.length) :
    (∀ u : PlayerState, u.current_playlist = some pl →
      (playNextStep u).current_playlist_index =
        (u.current_playlist_index + 1) % (pl.tracks.length : Int)) ∧
    (∀ i : Nat, (playNextStep^[i] s).current_playlist = some pl ∧
      (playNextStep^[i] s).current_playlist_index =
        (i : Int) % (pl.tracks.length : Int)) := by
  constructor
  · intro u hu
    exact (playNextStep_advances pl u hu hn).2
  · intro i
    induction i with
    | zero => exact ⟨h, by simp [h0]⟩
    | succ i ih =>
      have hstep := playNextStep_advances pl (playNextStep^[i] s) ih.1 hn
      rw [Function.iterate_succ_apply']
      refine ⟨hstep.1, ?_⟩
      rw [hstep.2, ih.2]
      have hcast : ((i + 1 : Nat) : Int) = (i : Int) + 1 := by push_cast; ring
      rw [hcast]
      conv_rhs => rw [Int.add_emod]
      rw [Int.add_emod ((i : Int) % (pl.tracks.length : Int)) 1,
        Int.emod_emod_of_dvd _ dvd_rfl]

/-- C5 witness: the theorem at the concrete two-track session — after 2
all-successful calls from cursor 0 the cursor is 2 mod 2 = 0 (having
visited 1 then 0). -/
theorem C5_witness :
    (playNextStep^[2] sInPl).current_playlist = some plAB ∧
    (playNextStep^[2] sInPl).current_playlist_index =
      ((2 : Nat) : Int) % (plAB.tracks.length : Int) :=
  (C5_playlist_wrap plAB sInPl rfl rfl (by decide)).2 2

/-- stop preserves cursor validity: it either clears the context or leaves
both context and cursor untouched. -/
lemma stop_preserves_inv (b : Bool) (s : PlayerState) (hI : Inv s) :
    Inv (stop b s) := by
  intro pl hpl
  cases b with
  | true => simp [stop] at hpl
  | false =>
    have hpl' : s.current_playlist = some pl := by simpa [stop] using hpl
    simpa [stop] using hI pl hpl'

/-- play_track preserves cursor validity: it only clears or keeps the
context and never touches the cursor otherwise. -/
lemma play_track_preserves_inv (resolve : String → Option String)
    (s : PlayerState) (url title : String) (duration : Int) (fp : Bool)
    (hI : Inv s) : Inv (play_track resolve s url title duration fp).1 := by
  unfold play_track
  cases hr : resolve url with
  | none => exact stop_preserves_inv (!fp) s hI
  | some v =>
    intro pl hpl
    exact stop_preserves_inv (!fp) s hI pl hpl

/-- play_playlist_track with a nonnegative index preserves cursor
validity: the guard then guarantees the recorded cursor is in range. -/
lemma play_playlist_track_preserves_inv (resolve : String → Option String)
    (s : PlayerState) (pid : String) (idx : Int) (h0 : 0 ≤ idx)
    (hI : Inv s) : Inv (stateOf (play_playlist_track resolve s pid idx)) := by
  unfold play_playlist_track
  cases hf : s.playlists.find? (fun p => p.id == pid) with
  | none => exact hI
  | some pl =>
    dsimp only
    by_cases hlen : (pl.tracks.length : Int) ≤ idx
    · rw [if_pos hlen]; exact hI
    · rw [if_neg hlen]
      have hidx : idx < (pl.tracks.length : Int) := by omega
      have hs1 :
          Inv { s with current_playlist := some pl
                       current_playlist_index := idx } := by
        intro pl' hpl'
        simp only [Option.some.injEq] at hpl'
        subst hpl'
        exact ⟨h0, hidx⟩
      cases hpi : pyIndex pl.tracks idx with
      | none => exact hs1
      | some tr =>
        exact play_track_preserves_inv resolve _ tr.url tr.title tr.duration
          true hs1

/-- play_next_in_playlist preserves cursor validity through every retry:
each advance takes the cursor modulo the playlist length. -/
lemma play_next_preserves_inv (att : Nat → Outcome) :
    ∀ (fuel k : Nat) (s s' : PlayerState) (b : Bool), Inv s →
      play_next_in_playlist att k fuel s = some (s', b) → Inv s' := by
  intro fuel
  induction fuel with
  | zero =>
    intro k s s' b _ h
    simp [play_next_in_playlist] at h
  | succ f ih =>
    intro k s s' b hI h
    rw [play_next_in_playlist] at h
    cases hpl : s.current_playlist with
    | none =>
      rw [hpl] at h
      simp only [Option.some.injEq, Prod.mk.injEq] at h
      obtain ⟨rfl, rfl⟩ := h
      exact hI
    | some pl =>
      rw [hpl] at h
      by_cases hlen : pl.tracks.length = 0
      · simp only [hlen, if_true] at h
        simp only [Option.some.injEq, Prod.mk.injEq] at h
        obtain ⟨rfl, rfl⟩ := h
        exact hI
      · have hlenZ : (0 : Int) < (pl.tracks.length : Int) := by
          exact_mod_cast Nat.pos_of_ne_zero hlen
        have hmod0 :
            0 ≤ (s.current_playlist_index + 1) % (pl.tracks.length : Int) :=
          Int.emod_nonneg _ hlenZ.ne'
        have hmodlt :
            (s.current_playlist_index + 1) % (pl.tracks.length : Int) <
              (pl.tracks.length : Int) :=
          Int.emod_lt_of_pos _ hlenZ
        have hs1 : Inv (stop false { s with
            current_playlist := some pl
            current_playlist_index :=
              (s.current_playlist_index + 1) % (pl.tracks.length : Int) }) := by
          intro pl' hpl'
          have hc : some pl = some pl' := by simpa [stop] using hpl'
          simp only [Option.some.injEq] at hc
          subst hc
          exact ⟨hmod0, hmodlt⟩
        simp only [hlen, if_false] at h
        cases ha : att k with
        | ok =>
          rw [ha] at h
          simp only [Option.some.injEq, Prod.mk.injEq] at h
          obtain ⟨rfl, rfl⟩ := h
          intro pl' hpl'
          exact hs1 pl' hpl'
        | failed =>
          rw [ha] at h
          simp only [Option.some.injEq, Prod.mk.injEq] at h
          obtain ⟨rfl, rfl⟩ := h
          exact hs1
        | raised =>
          rw [ha] at h
          dsimp only at h
          by_cases h1 : 1 < pl.tracks.length
          · rw [if_pos h1] at h
            exact ih (k + 1) _ s' b hs1 h
          · rw [if_neg h1] at h
            simp only [Option.some.injEq, Prod.mk.injEq] at h
            obtain ⟨rfl, rfl⟩ := h
            exact hs1

/-- C2 counterexample: play_playlist_track accepts the negative track
index -1 (its guard only rejects indices ≥ len(tracks)); on the one-track
playlist "p2" the call succeeds (Python's negative indexing plays the
last track) and leaves the continuation context bound with cursor -1,
which is not a valid index into the bound playlist's track sequence — so
the invariant is not preserved by every public operation as claimed. -/
theorem C2_counterexample :
    play_playlist_track resolveAll sIdle "p2" (-1) =
      .ok (⟨true, some "Song A", 100, 100, [plAB, plA], some plA, -1⟩,
        true) ∧
    (⟨true, some "Song A", 100, 100, [plAB, plA], some plA, -1⟩ :
        PlayerState).current_playlist ≠ none ∧
    (⟨true, some "Song A", 100, 100, [plAB, plA], some plA, -1⟩ :
        PlayerState).current_playlist_index < 0 :=
  ⟨rfl, by decide, by decide⟩

/-- C2 amended: from any session satisfying the cursor-validity invariant
(context bound implies the cursor is a nonnegative in-range index), every
public operation preserves it, provided play_playlist_track is invoked
with a nonnegative track index; and any track started outside a playlist
context (play_track with from_playlist = false) leaves the context
cleared. -/
theorem C2_context_invariant (s : PlayerState) (hI : Inv s) :
    (∀ (resolve : String → Option String) (url title : String)
        (duration : Int) (fp : Bool),
      Inv (play_track resolve s url title duration fp).1 ∧
      (fp = false →
        (play_track resolve s url title duration fp).1.current_playlist =
          none)) ∧
    (∀ (resolve : String → Option String) (pid : String) (idx : Int),
      0 ≤ idx → Inv (stateOf (play_playlist_track resolve s pid idx))) ∧
    (∀ b : Bool, Inv (stop b s)) ∧
    (∀ (att : Nat → Outcome) (k fuel : Nat) (s' : PlayerState) (b : Bool),
      play_next_in_playlist att k fuel s = some (s', b) → Inv s') := by
  refine ⟨?_, ?_, ?_, ?_⟩
  · intro resolve url title d fp
    refine ⟨play_track_preserves_inv resolve s url title d fp hI, ?_⟩
    intro hfp
    subst hfp
    cases hr : resolve url <;> simp [play_track, hr, stop]
  · intro resolve pid idx h0
    exact play_playlist_track_preserves_inv resolve s pid idx h0 hI
  · intro b
    exact stop_preserves_inv b s hI
  · intro att k fuel s' b h
    exact play_next_preserves_inv att fuel k s s' b hI h

/-- C2 witness: the amended statement at the concrete idle session, for a
concrete in-range playlist play. -/
theorem C2_witness :
    Inv (stateOf (play_playlist_track resolveAll sIdle "p2" 0)) :=
  (C2_context_invariant sIdle
      (by intro pl hpl; simp [sIdle] at hpl)).2.1 resolveAll "p2" 0
    (by decide)

end Ongaku
